import Mathlib

/-!
Formal model of the multi-solution constrained greedy set-cover engine of
multiple_coverage_analysis.py (find_team_coverage,
greedy_set_cover_with_required_team, find_alternative_solutions).

Modelling choices, each matching the Python source:
* A Python dict is an association list in insertion order (Python dicts
  preserve insertion order and have unique keys).
* A Python set is a Finset: the engine only uses membership, cardinality,
  intersection and difference on sets, none of which depend on iteration
  order.
* Team identifiers are Nat, event names are String.
* The optional required_team parameter (default None) is an Option Nat; the
  source tests it with Python truthiness (if required_team), under which both
  None and 0 are falsy, which is modelled explicitly.
* The source's while loops are given explicit fuel; the fuel passed at every
  call site (the cardinality of the uncovered set at loop entry) is proved
  sufficient (greedyLoop_stable), so the fueled function agrees with the
  source's unbounded loop.
-/

namespace MCA

/-- Coverage index: association list from team to the list of events it
attends, in first-appearance order (models the Python dict
team_to_events). -/
abbrev Cov := List (Nat × List String)

/-- Eligibility filter of find_team_coverage: (team <= max_team_number or
team in included_teams) and team not in excluded_teams. -/
def eligibleTeam (max_team_number : Nat) (excluded_teams included_teams : List Nat)
    (team : Nat) : Bool :=
  (decide (team ≤ max_team_number) || included_teams.contains team) &&
    !(excluded_teams.contains team)

/-- One defaultdict(list) update: team_to_events[team].append(event); a new
key is appended at the end (dict insertion order). -/
def addEvent : Cov → Nat → String → Cov
  | [], team, ev => [(team, [ev])]
  | (t, evs) :: rest, team, ev =>
    if t = team then (t, evs ++ [ev]) :: rest
    else (t, evs) :: addEvent rest team ev

/-- Inner loop of find_team_coverage over one event's team list. -/
def addTeams (max_team_number : Nat) (excluded_teams included_teams : List Nat)
    (ev : String) (m : Cov) (teams : List Nat) : Cov :=
  teams.foldl
    (fun m' team =>
      if eligibleTeam max_team_number excluded_teams included_teams team then
        addEvent m' team ev
      else m') m

/-- find_team_coverage: builds the team -> events coverage index from the raw
event -> teams mapping, applying the eligibility filter per (event, team)
pair. -/
def find_team_coverage (events : List (String × List Nat)) (max_team_number : Nat)
    (excluded_teams included_teams : List Nat) : Cov :=
  events.foldl
    (fun m p => addTeams max_team_number excluded_teams included_teams p.1 m p.2) []

/-- set(events.keys()): the full task universe. -/
def taskUniverse (events : List (String × List Nat)) : Finset String :=
  (events.map Prod.fst).toFinset

/-- team_coverage[t] as a total function (every call site in the source only
looks up keys that are present). -/
def teamEvents (cov : Cov) (t : Nat) : List String :=
  (cov.lookup t).getD []

/-- len(set(team_events) & uncovered_events): marginal coverage of a team. -/
def coverageOf (uncovered : Finset String) (evs : List String) : Nat :=
  (evs.toFinset ∩ uncovered).card

/-- One iteration of the best-team scan: skip selected teams, replace the
running best on strictly greater marginal coverage (coverage > best_coverage),
so on ties the earlier entry in iteration order is kept. -/
def stepBest (uncovered : Finset String) (selected : List Nat)
    (acc : Option (Nat × List String) × Nat) (p : Nat × List String) :
    Option (Nat × List String) × Nat :=
  if selected.contains p.1 then acc
  else if acc.2 < coverageOf uncovered p.2 then (some p, coverageOf uncovered p.2)
  else acc

/-- The scan for the unselected team with the most uncovered events
(best_team, best_coverage initialised to None, 0). -/
def bestTeam (cov : Cov) (selected : List Nat) (uncovered : Finset String) :
    Option (Nat × List String) × Nat :=
  cov.foldl (stepBest uncovered selected) (none, 0)

/-- The greedy while loop shared by the Selector and the Explorer: while
uncovered is nonempty, pick the best team (or stop when none improves),
append it and subtract its events.  Called with fuel = uncovered.card, which
never runs out (greedyLoop_stable). -/
def greedyLoop (cov : Cov) : Nat → List Nat → Finset String → List Nat
  | 0, selected, _ => selected
  | fuel + 1, selected, uncovered =>
    if uncovered = ∅ then selected
    else
      match (bestTeam cov selected uncovered).1 with
      | none => selected
      | some p => greedyLoop cov fuel (selected ++ [p.1]) (uncovered \ p.2.toFinset)

/-- Seeding step of greedy_set_cover_with_required_team:
if required_team and required_team in team_coverage (Python truthiness:
required 0 or None skips the seeding). -/
def seedIfRequired (cov : Cov) (required_team : Option Nat)
    (uncovered : Finset String) : List Nat × Finset String :=
  match required_team with
  | none => ([], uncovered)
  | some r =>
    if r ≠ 0 then
      match cov.lookup r with
      | some evs => ([r], uncovered \ evs.toFinset)
      | none => ([], uncovered)
    else ([], uncovered)

/-- greedy_set_cover_with_required_team: returns the selected team sequence
and its length. -/
def greedy_set_cover_with_required_team (events : List (String × List Nat))
    (required_team : Option Nat) (max_team_number : Nat)
    (excluded_teams included_teams : List Nat) : List Nat × Nat :=
  let cov := find_team_coverage events max_team_number excluded_teams included_teams
  let st := seedIfRequired cov required_team (taskUniverse events)
  let sel := greedyLoop cov st.2.card st.1 st.2
  (sel, sel.length)

/-- multi_event_teams: teams of the index attending at least two events, in
index order. -/
def multiEventTeams (cov : Cov) : List Nat :=
  (cov.filter (fun p => decide (2 ≤ p.2.length))).map Prod.fst

/-- Seed list of the Explorer: when required_team is truthy it is moved to
the front (list.remove removes the first occurrence; List.erase is a no-op
when absent, like the guarded remove in the source). -/
def seedsFor (cov : Cov) (required_team : Option Nat) : List Nat :=
  match required_team with
  | some r =>
    if r ≠ 0 then r :: (multiEventTeams cov).erase r else multiEventTeams cov
  | none => multiEventTeams cov

/-- Explorer seeding with the required team: if required_team and
required_team != start_team and required_team in team_coverage. -/
def seedRequiredStep (cov : Cov) (required_team : Option Nat) (start : Nat)
    (st : List Nat × Finset String) : List Nat × Finset String :=
  match required_team with
  | none => st
  | some r =>
    if r ≠ 0 ∧ r ≠ start then
      match cov.lookup r with
      | some evs => (st.1 ++ [r], st.2 \ evs.toFinset)
      | none => st
    else st

/-- Explorer seeding with the start team: if start_team in team_coverage. -/
def seedStartStep (cov : Cov) (start : Nat)
    (st : List Nat × Finset String) : List Nat × Finset String :=
  match cov.lookup start with
  | some evs => (st.1 ++ [start], st.2 \ evs.toFinset)
  | none => st

/-- all_covered: union of team_coverage[team] over the selected teams. -/
def allCovered (cov : Cov) (selected : List Nat) : Finset String :=
  selected.foldl (fun acc t => acc ∪ (teamEvents cov t).toFinset) ∅

/-- Acceptance test of the Explorer: record the candidate only if it covers
as many events as there are (completeness) and its team set is not already
present among the accumulated solutions. -/
def acceptSolution (events : List (String × List Nat)) (cov : Cov)
    (sols : List (List Nat × Nat)) (selected : List Nat) :
    List (List Nat × Nat) :=
  if (allCovered cov selected).card = events.length then
    if sols.any (fun sol => decide (sol.1.toFinset = selected.toFinset)) then sols
    else sols ++ [(selected, selected.length)]
  else sols

/-- One iteration of the Explorer's seed loop: skip a seed equal to the
(truthy-compared) required team when a solution is already recorded, else
seed, run the greedy loop and test acceptance. -/
def exploreSeed (events : List (String × List Nat)) (cov : Cov)
    (required_team : Option Nat) (sols : List (List Nat × Nat)) (start : Nat) :
    List (List Nat × Nat) :=
  if required_team = some start ∧ 0 < sols.length then sols
  else
    let st1 := seedRequiredStep cov required_team start ([], taskUniverse events)
    let st2 := seedStartStep cov start st1
    let selected := greedyLoop cov st2.2.card st2.1 st2.2
    acceptSolution events cov sols selected

/-- Seed state of one Explorer iteration: the (selected, uncovered) pair
after the required-team and start-team seeding steps — exactly the state at
entry of the reseeded greedy loop inside exploreSeed. -/
def explorerSeedState (events : List (String × List Nat)) (required_team : Option Nat)
    (max_team_number : Nat) (excluded_teams included_teams : List Nat)
    (start : Nat) : List Nat × Finset String :=
  seedStartStep (find_team_coverage events max_team_number excluded_teams included_teams)
    start
    (seedRequiredStep
      (find_team_coverage events max_team_number excluded_teams included_teams)
      required_team start ([], taskUniverse events))

/-- find_alternative_solutions: Solution #1 from the Selector, then up to
max_solutions seeds explored, and the accumulated list truncated to
max_solutions. -/
def find_alternative_solutions (events : List (String × List Nat))
    (required_team : Option Nat) (max_solutions : Nat) (max_team_number : Nat)
    (excluded_teams included_teams : List Nat) : List (List Nat × Nat) :=
  let cov := find_team_coverage events max_team_number excluded_teams included_teams
  let solution1 := greedy_set_cover_with_required_team events required_team
      max_team_number excluded_teams included_teams
  let seeds := (seedsFor cov required_team).take max_solutions
  (seeds.foldl (exploreSeed events cov required_team) [solution1]).take max_solutions

/-- Rewriting find_team_coverage to a fold with an explicit accumulator, for
induction. -/
def buildCov (max_team_number : Nat) (excluded_teams included_teams : List Nat)
    (m : Cov) (events : List (String × List Nat)) : Cov :=
  events.foldl
    (fun m' p => addTeams max_team_number excluded_teams included_teams p.1 m' p.2) m

lemma find_team_coverage_eq_buildCov (events : List (String × List Nat))
    (max_team_number : Nat) (excluded_teams included_teams : List Nat) :
    find_team_coverage events max_team_number excluded_teams included_teams =
      buildCov max_team_number excluded_teams included_teams [] events := rfl

lemma addTeams_cons (max_team_number : Nat) (excluded_teams included_teams : List Nat)
    (ev : String) (m : Cov) (team : Nat) (rest : List Nat) :
    addTeams max_team_number excluded_teams included_teams ev m (team :: rest) =
      addTeams max_team_number excluded_teams included_teams ev
        (if eligibleTeam max_team_number excluded_teams included_teams team then
          addEvent m team ev
        else m) rest := rfl

lemma buildCov_cons (max_team_number : Nat) (excluded_teams included_teams : List Nat)
    (m : Cov) (p : String × List Nat) (rest : List (String × List Nat)) :
    buildCov max_team_number excluded_teams included_teams m (p :: rest) =
      buildCov max_team_number excluded_teams included_teams
        (addTeams max_team_number excluded_teams included_teams p.1 m p.2) rest := rfl

lemma mem_keys_addEvent {m : Cov} {t s : Nat} {ev : String} :
    s ∈ (addEvent m t ev).map Prod.fst ↔ s ∈ m.map Prod.fst ∨ s = t := by
  induction m with
  | nil => simp [addEvent]
  | cons p rest ih =>
    obtain ⟨k, v⟩ := p
    by_cases hk : k = t
    · subst hk
      simp [addEvent]
      tauto
    · simp [addEvent, hk, ih]
      tauto

lemma keys_nodup_addEvent {m : Cov} {t : Nat} {ev : String}
    (h : (m.map Prod.fst).Nodup) : ((addEvent m t ev).map Prod.fst).Nodup := by
  induction m with
  | nil => simp [addEvent]
  | cons p rest ih =>
    obtain ⟨k, v⟩ := p
    simp only [List.map_cons, List.nodup_cons] at h
    by_cases hk : k = t
    · subst hk
      simpa [addEvent] using h
    · simp only [addEvent, if_neg hk, List.map_cons, List.nodup_cons]
      refine ⟨?_, ih h.2⟩
      rw [mem_keys_addEvent]
      rintro (hm | rfl)
      · exact h.1 hm
      · exact hk rfl

lemma mem_val_addEvent {m : Cov} {t : Nat} {ev : String} {q : Nat × List String}
    (hq : q ∈ addEvent m t ev) {e : String} (he : e ∈ q.2) :
    (∃ q' ∈ m, e ∈ q'.2) ∨ e = ev := by
  induction m with
  | nil =>
    simp only [addEvent, List.mem_singleton] at hq
    subst hq
    simp only [List.mem_singleton] at he
    exact Or.inr he
  | cons p rest ih =>
    obtain ⟨k, v⟩ := p
    by_cases hk : k = t
    · subst hk
      rw [show addEvent ((k, v) :: rest) k ev = (k, v ++ [ev]) :: rest by
        simp [addEvent]] at hq
      rcases List.mem_cons.mp hq with rfl | hq
      · simp only [List.mem_append, List.mem_singleton] at he
        rcases he with he | he
        · exact Or.inl ⟨(k, v), List.mem_cons_self _ _, he⟩
        · exact Or.inr he
      · exact Or.inl ⟨q, List.mem_cons_of_mem _ hq, he⟩
    · simp only [addEvent, if_neg hk, List.mem_cons] at hq
      rcases hq with rfl | hq
      · exact Or.inl ⟨(k, v), List.mem_cons_self _ _, he⟩
      · rcases ih hq with ⟨q', hq', he'⟩ | he'
        · exact Or.inl ⟨q', List.mem_cons_of_mem _ hq', he'⟩
        · exact Or.inr he'

lemma mem_keys_addTeams {max_team_number : Nat} {excluded_teams included_teams : List Nat}
    {ev : String} :
    ∀ (teams : List Nat) (m : Cov) (s : Nat),
      s ∈ (addTeams max_team_number excluded_teams included_teams ev m teams).map Prod.fst ↔
        s ∈ m.map Prod.fst ∨
          (s ∈ teams ∧ eligibleTeam max_team_number excluded_teams included_teams s = true) := by
  intro teams
  induction teams with
  | nil => intro m s; simp [addTeams]
  | cons team rest ih =>
    intro m s
    rw [addTeams_cons, ih]
    by_cases h : eligibleTeam max_team_number excluded_teams included_teams team
    · rw [if_pos h, mem_keys_addEvent]
      constructor
      · rintro ((hm | rfl) | ⟨hr, he⟩)
        · exact Or.inl hm
        · exact Or.inr ⟨List.mem_cons_self _ _, h⟩
        · exact Or.inr ⟨List.mem_cons_of_mem _ hr, he⟩
      · rintro (hm | ⟨hst, he⟩)
        · exact Or.inl (Or.inl hm)
        · rcases List.mem_cons.mp hst with rfl | hr
          · exact Or.inl (Or.inr rfl)
          · exact Or.inr ⟨hr, he⟩
    · rw [if_neg h]
      constructor
      · rintro (hm | ⟨hr, he⟩)
        · exact Or.inl hm
        · exact Or.inr ⟨List.mem_cons_of_mem _ hr, he⟩
      · rintro (hm | ⟨hst, he⟩)
        · exact Or.inl hm
        · rcases List.mem_cons.mp hst with rfl | hr
          · exact absurd he h
          · exact Or.inr ⟨hr, he⟩

lemma keys_nodup_addTeams {max_team_number : Nat} {excluded_teams included_teams : List Nat}
    {ev : String} :
    ∀ (teams : List Nat) (m : Cov), (m.map Prod.fst).Nodup →
      ((addTeams max_team_number excluded_teams included_teams ev m teams).map Prod.fst).Nodup := by
  intro teams
  induction teams with
  | nil => intro m h; simpa [addTeams] using h
  | cons team rest ih =>
    intro m h
    rw [addTeams_cons]
    by_cases he : eligibleTeam max_team_number excluded_teams included_teams team
    · rw [if_pos he]; exact ih _ (keys_nodup_addEvent h)
    · rw [if_neg he]; exact ih _ h

lemma mem_val_addTeams {max_team_number : Nat} {excluded_teams included_teams : List Nat}
    {ev : String} (P : String → Prop) :
    ∀ (teams : List Nat) (m : Cov), (∀ q ∈ m, ∀ e ∈ q.2, P e) → P ev →
      ∀ q ∈ addTeams max_team_number excluded_teams included_teams ev m teams,
        ∀ e ∈ q.2, P e := by
  intro teams
  induction teams with
  | nil => intro m hm _ q hq; exact hm q hq
  | cons team rest ih =>
    intro m hm hev
    rw [addTeams_cons]
    by_cases he : eligibleTeam max_team_number excluded_teams included_teams team
    · rw [if_pos he]
      refine ih _ ?_ hev
      intro q hq e hqe
      rcases mem_val_addEvent hq hqe with ⟨q', hq', he'⟩ | rfl
      · exact hm q' hq' e he'
      · exact hev
    · rw [if_neg he]; exact ih _ hm hev

lemma mem_keys_buildCov {max_team_number : Nat} {excluded_teams included_teams : List Nat} :
    ∀ (events : List (String × List Nat)) (m : Cov) (s : Nat),
      s ∈ (buildCov max_team_number excluded_teams included_teams m events).map Prod.fst ↔
        s ∈ m.map Prod.fst ∨
          ((∃ p ∈ events, s ∈ p.2) ∧
            eligibleTeam max_team_number excluded_teams included_teams s = true) := by
  intro events
  induction events with
  | nil => intro m s; simp [buildCov]
  | cons p rest ih =>
    intro m s
    rw [buildCov_cons, ih, mem_keys_addTeams]
    constructor
    · rintro ((hm | ⟨hp, he⟩) | ⟨⟨q, hq, hs⟩, he⟩)
      · exact Or.inl hm
      · exact Or.inr ⟨⟨p, List.mem_cons_self _ _, hp⟩, he⟩
      · exact Or.inr ⟨⟨q, List.mem_cons_of_mem _ hq, hs⟩, he⟩
    · rintro (hm | ⟨⟨q, hq, hs⟩, he⟩)
      · exact Or.inl (Or.inl hm)
      · rcases List.mem_cons.mp hq with rfl | hq'
        · exact Or.inl (Or.inr ⟨hs, he⟩)
        · exact Or.inr ⟨⟨q, hq', hs⟩, he⟩

lemma keys_nodup_buildCov {max_team_number : Nat} {excluded_teams included_teams : List Nat} :
    ∀ (events : List (String × List Nat)) (m : Cov), (m.map Prod.fst).Nodup →
      ((buildCov max_team_number excluded_teams included_teams m events).map Prod.fst).Nodup := by
  intro events
  induction events with
  | nil => intro m h; exact h
  | cons p rest ih =>
    intro m h
    rw [buildCov_cons]
    exact ih _ (keys_nodup_addTeams _ _ h)

lemma mem_val_buildCov {max_team_number : Nat} {excluded_teams included_teams : List Nat}
    (P : String → Prop) :
    ∀ (events : List (String × List Nat)) (m : Cov),
      (∀ q ∈ m, ∀ e ∈ q.2, P e) → (∀ p ∈ events, P p.1) →
      ∀ q ∈ buildCov max_team_number excluded_teams included_teams m events,
        ∀ e ∈ q.2, P e := by
  intro events
  induction events with
  | nil => intro m hm _ q hq; exact hm q hq
  | cons p rest ih =>
    intro m hm hev
    rw [buildCov_cons]
    refine ih _ ?_ ?_
    · exact mem_val_addTeams P p.2 m hm (hev p (List.mem_cons_self _ _))
    · intro q hq; exact hev q (List.mem_cons_of_mem _ hq)

lemma mem_keys_find_team_coverage {events : List (String × List Nat)}
    {max_team_number : Nat} {excluded_teams included_teams : List Nat} {s : Nat} :
    s ∈ (find_team_coverage events max_team_number excluded_teams included_teams).map
        Prod.fst ↔
      (∃ p ∈ events, s ∈ p.2) ∧
        eligibleTeam max_team_number excluded_teams included_teams s = true := by
  rw [find_team_coverage_eq_buildCov, mem_keys_buildCov]
  simp

lemma keys_nodup_find_team_coverage (events : List (String × List Nat))
    (max_team_number : Nat) (excluded_teams included_teams : List Nat) :
    ((find_team_coverage events max_team_number excluded_teams included_teams).map
      Prod.fst).Nodup := by
  rw [find_team_coverage_eq_buildCov]
  exact keys_nodup_buildCov events [] (by simp)

lemma mem_val_find_team_coverage {events : List (String × List Nat)}
    {max_team_number : Nat} {excluded_teams included_teams : List Nat}
    {q : Nat × List String}
    (hq : q ∈ find_team_coverage events max_team_number excluded_teams included_teams)
    {e : String} (he : e ∈ q.2) : e ∈ events.map Prod.fst := by
  rw [find_team_coverage_eq_buildCov] at hq
  refine mem_val_buildCov (fun x => x ∈ events.map Prod.fst) events [] (by simp) ?_ q hq e he
  intro p hp
  exact List.mem_map_of_mem Prod.fst hp

lemma mem_keys_iff_lookup {cov : Cov} {t : Nat} :
    t ∈ cov.map Prod.fst ↔ (cov.lookup t).isSome := by
  rw [List.lookup_isSome_iff]
  simp only [List.mem_map, beq_iff_eq]
  constructor
  · rintro ⟨p, hp, rfl⟩; exact ⟨p, hp, rfl⟩
  · rintro ⟨p, hp, rfl⟩; exact ⟨p, hp, rfl⟩

lemma lookup_mem {cov : Cov} {t : Nat} {evs : List String}
    (h : cov.lookup t = some evs) : (t, evs) ∈ cov := by
  rcases List.lookup_eq_some_iff.mp h with ⟨l₁, l₂, rfl, -⟩
  simp

lemma stepBest_good {unc : Finset String} {sel : List Nat} {G : Cov}
    (acc : Option (Nat × List String) × Nat) (p : Nat × List String)
    (hacc : ∀ q, acc.1 = some q →
      q ∈ G ∧ sel.contains q.1 = false ∧ 0 < coverageOf unc q.2)
    (hp : p ∈ G) :
    ∀ q, (stepBest unc sel acc p).1 = some q →
      q ∈ G ∧ sel.contains q.1 = false ∧ 0 < coverageOf unc q.2 := by
  intro q hq
  unfold stepBest at hq
  by_cases hsel : sel.contains p.1
  · rw [if_pos hsel] at hq; exact hacc q hq
  · rw [if_neg hsel] at hq
    by_cases hc : acc.2 < coverageOf unc p.2
    · rw [if_pos hc] at hq
      simp only [Option.some.injEq] at hq
      subst hq
      exact ⟨hp, Bool.eq_false_iff.mpr hsel, Nat.lt_of_le_of_lt (Nat.zero_le _) hc⟩
    · rw [if_neg hc] at hq; exact hacc q hq

lemma bestTeam_fold_good {unc : Finset String} {sel : List Nat} {G : Cov} :
    ∀ (l : Cov) (acc : Option (Nat × List String) × Nat),
      (∀ p ∈ l, p ∈ G) →
      (∀ q, acc.1 = some q →
        q ∈ G ∧ sel.contains q.1 = false ∧ 0 < coverageOf unc q.2) →
      ∀ q, ((l.foldl (stepBest unc sel) acc).1 = some q) →
        q ∈ G ∧ sel.contains q.1 = false ∧ 0 < coverageOf unc q.2 := by
  intro l
  induction l with
  | nil => intro acc _ hacc q hq; exact hacc q hq
  | cons p rest ih =>
    intro acc hl hacc q hq
    rw [List.foldl_cons] at hq
    refine ih _ (fun r hr => hl r (List.mem_cons_of_mem _ hr)) ?_ q hq
    exact stepBest_good acc p hacc (hl p (List.mem_cons_self _ _))

lemma bestTeam_some {cov : Cov} {sel : List Nat} {unc : Finset String}
    {p : Nat × List String} (h : (bestTeam cov sel unc).1 = some p) :
    p ∈ cov ∧ sel.contains p.1 = false ∧ 0 < coverageOf unc p.2 :=
  bestTeam_fold_good cov (none, 0) (fun _ hp => hp) (by simp) p h

lemma card_sdiff_lt_of_coverage {unc : Finset String} {evs : List String}
    (h : 0 < coverageOf unc evs) : (unc \ evs.toFinset).card < unc.card := by
  obtain ⟨x, hx⟩ := Finset.card_pos.mp h
  rw [Finset.mem_inter] at hx
  refine Finset.card_lt_card (Finset.ssubset_def.mpr ⟨Finset.sdiff_subset, ?_⟩)
  intro hsub
  have hmem := hsub hx.2
  simp only [Finset.mem_sdiff] at hmem
  exact hmem.2 hx.1

lemma greedyLoop_append (cov : Cov) :
    ∀ (fuel : Nat) (sel : List Nat) (unc : Finset String),
      ∃ rest, greedyLoop cov fuel sel unc = sel ++ rest := by
  intro fuel
  induction fuel with
  | zero => intro sel unc; exact ⟨[], by simp [greedyLoop]⟩
  | succ n ih =>
    intro sel unc
    rw [greedyLoop]
    split
    · exact ⟨[], by simp⟩
    · split
      · exact ⟨[], by simp⟩
      · next p hp =>
        obtain ⟨rest, hr⟩ := ih (sel ++ [p.1]) (unc \ p.2.toFinset)
        exact ⟨p.1 :: rest, by rw [hr]; simp⟩

lemma greedyLoop_mem (cov : Cov) :
    ∀ (fuel : Nat) (sel : List Nat) (unc : Finset String) (x : Nat),
      x ∈ greedyLoop cov fuel sel unc → x ∈ sel ∨ x ∈ cov.map Prod.fst := by
  intro fuel
  induction fuel with
  | zero => intro sel unc x hx; rw [greedyLoop] at hx; exact Or.inl hx
  | succ n ih =>
    intro sel unc x hx
    rw [greedyLoop] at hx
    revert hx
    split
    · exact fun hx => Or.inl hx
    · split
      · exact fun hx => Or.inl hx
      · next p hp =>
        intro hx
        rcases ih _ _ x hx with hs | hk
        · rcases List.mem_append.mp hs with hs | hs
          · exact Or.inl hs
          · rw [List.mem_singleton] at hs
            subst hs
            exact Or.inr (List.mem_map_of_mem Prod.fst (bestTeam_some hp).1)
        · exact Or.inr hk

lemma greedyLoop_nodup (cov : Cov) :
    ∀ (fuel : Nat) (sel : List Nat) (unc : Finset String),
      sel.Nodup → (greedyLoop cov fuel sel unc).Nodup := by
  intro fuel
  induction fuel with
  | zero => intro sel unc h; rw [greedyLoop]; exact h
  | succ n ih =>
    intro sel unc h
    rw [greedyLoop]
    split
    · exact h
    · split
      · exact h
      · next p hp =>
        refine ih _ _ ?_
        have hnot : p.1 ∉ sel := by
          have := (bestTeam_some hp).2.1
          simpa using this
        simp [List.nodup_append, h, hnot]

lemma greedyLoop_length (cov : Cov) :
    ∀ (fuel : Nat) (sel : List Nat) (unc : Finset String),
      (greedyLoop cov fuel sel unc).length ≤ sel.length + unc.card := by
  intro fuel
  induction fuel with
  | zero => intro sel unc; rw [greedyLoop]; omega
  | succ n ih =>
    intro sel unc
    rw [greedyLoop]
    split
    · omega
    · split
      · omega
      · next p hp =>
        have h1 := ih (sel ++ [p.1]) (unc \ p.2.toFinset)
        have h2 := card_sdiff_lt_of_coverage (bestTeam_some hp).2.2
        simp only [List.length_append, List.length_singleton] at h1
        omega

lemma greedyLoop_stable_succ (cov : Cov) :
    ∀ (fuel : Nat) (sel : List Nat) (unc : Finset String), unc.card ≤ fuel →
      greedyLoop cov (fuel + 1) sel unc = greedyLoop cov fuel sel unc := by
  intro fuel
  induction fuel with
  | zero =>
    intro sel unc h
    have hu : unc = ∅ := Finset.card_eq_zero.mp (Nat.le_zero.mp h)
    conv_lhs => rw [greedyLoop]
    rw [if_pos hu, greedyLoop]
  | succ n ih =>
    intro sel unc h
    by_cases hu : unc = ∅
    · conv_lhs => rw [greedyLoop]
      conv_rhs => rw [greedyLoop]
      rw [if_pos hu, if_pos hu]
    · conv_lhs => rw [greedyLoop]
      conv_rhs => rw [greedyLoop]
      rw [if_neg hu, if_neg hu]
      cases hb : (bestTeam cov sel unc).1 with
      | none => rfl
      | some p =>
        have hcard := card_sdiff_lt_of_coverage (bestTeam_some hb).2.2
        exact ih (sel ++ [p.1]) (unc \ p.2.toFinset) (by omega)

lemma greedyLoop_stable (cov : Cov) :
    ∀ (fuel : Nat) (sel : List Nat) (unc : Finset String), unc.card ≤ fuel →
      greedyLoop cov fuel sel unc = greedyLoop cov unc.card sel unc := by
  intro fuel
  induction fuel with
  | zero =>
    intro sel unc h
    have : unc.card = 0 := Nat.le_zero.mp h
    rw [this]
  | succ n ih =>
    intro sel unc h
    rcases Nat.lt_or_ge unc.card (n + 1) with hlt | hge
    · have hle : unc.card ≤ n := by omega
      rw [greedyLoop_stable_succ cov n sel unc hle, ih sel unc hle]
    · have heq : unc.card = n + 1 := by omega
      rw [heq]

lemma teamEvents_sub {events : List (String × List Nat)} {max_team_number : Nat}
    {excluded_teams included_teams : List Nat} {t : Nat} :
    ∀ e ∈ teamEvents
        (find_team_coverage events max_team_number excluded_teams included_teams) t,
      e ∈ events.map Prod.fst := by
  intro e he
  unfold teamEvents at he
  cases hl :
      (find_team_coverage events max_team_number excluded_teams included_teams).lookup t with
  | none => rw [hl] at he; simp at he
  | some evs =>
    rw [hl] at he
    simp only [Option.getD_some] at he
    exact mem_val_find_team_coverage (lookup_mem hl) he

lemma allCovered_fold_sub {cov : Cov} {U : Finset String}
    (hcov : ∀ t, ∀ e ∈ teamEvents cov t, e ∈ U) :
    ∀ (sel : List Nat) (acc : Finset String), acc ⊆ U →
      sel.foldl (fun a t => a ∪ (teamEvents cov t).toFinset) acc ⊆ U := by
  intro sel
  induction sel with
  | nil => intro acc h; exact h
  | cons t rest ih =>
    intro acc h
    rw [List.foldl_cons]
    refine ih _ (Finset.union_subset h ?_)
    intro e he
    exact hcov t e (List.mem_toFinset.mp he)

lemma allCovered_sub {events : List (String × List Nat)} {max_team_number : Nat}
    {excluded_teams included_teams : List Nat} (sel : List Nat) :
    allCovered (find_team_coverage events max_team_number excluded_teams included_teams)
        sel ⊆ taskUniverse events := by
  unfold allCovered
  refine allCovered_fold_sub ?_ sel ∅ (Finset.empty_subset _)
  intro t e he
  rw [taskUniverse, List.mem_toFinset]
  exact teamEvents_sub e he

/-- Invariant of the Explorer's accumulated solution list: pairwise distinct
team sets, and every solution after the first passed the completeness test. -/
def SolsInv (events : List (String × List Nat)) (cov : Cov)
    (sols : List (List Nat × Nat)) : Prop :=
  sols.Pairwise (fun a b => a.1.toFinset ≠ b.1.toFinset) ∧
    ∀ s ∈ sols.drop 1, (allCovered cov s.1).card = events.length

lemma acceptSolution_inv {events : List (String × List Nat)} {cov : Cov}
    {sols : List (List Nat × Nat)} {selected : List Nat}
    (h : SolsInv events cov sols) :
    SolsInv events cov (acceptSolution events cov sols selected) := by
  unfold acceptSolution
  split
  · next hcard =>
    split
    · exact h
    · next hdup =>
      have hdiff : ∀ a ∈ sols, a.1.toFinset ≠ selected.toFinset := by
        intro a ha hEq
        exact hdup (List.any_eq_true.mpr ⟨a, ha, by simp [hEq]⟩)
      constructor
      · rw [List.pairwise_append]
        refine ⟨h.1, List.pairwise_singleton _ _, ?_⟩
        intro a ha b hb
        rw [List.mem_singleton] at hb
        subst hb
        exact hdiff a ha
      · intro s hs
        rcases sols with _ | ⟨s0, rest⟩
        · simp at hs
        · rw [List.cons_append, List.drop_succ_cons, List.drop_zero] at hs
          rcases List.mem_append.mp hs with hs | hs
          · exact h.2 s (by simpa using hs)
          · rw [List.mem_singleton] at hs
            subst hs
            exact hcard
  · exact h

lemma exploreSeed_inv {events : List (String × List Nat)} {cov : Cov}
    {required_team : Option Nat} {sols : List (List Nat × Nat)} {start : Nat}
    (h : SolsInv events cov sols) :
    SolsInv events cov (exploreSeed events cov required_team sols start) := by
  unfold exploreSeed
  split
  · exact h
  · exact acceptSolution_inv h

lemma foldl_exploreSeed_inv {events : List (String × List Nat)} {cov : Cov}
    {required_team : Option Nat} :
    ∀ (seeds : List Nat) (sols : List (List Nat × Nat)), SolsInv events cov sols →
      SolsInv events cov (seeds.foldl (exploreSeed events cov required_team) sols) := by
  intro seeds
  induction seeds with
  | nil => intro sols h; exact h
  | cons s rest ih =>
    intro sols h
    rw [List.foldl_cons]
    exact ih _ (exploreSeed_inv h)

lemma mem_drop_one_take {α : Type} {l : List α} {K : Nat} {s : α}
    (hs : s ∈ (l.take K).drop 1) : s ∈ l.drop 1 := by
  cases K with
  | zero => simp at hs
  | succ k =>
    have h := List.take_drop 1 k l
    rw [Nat.add_comm 1 k] at h
    rw [← h] at hs
    exact List.take_subset _ _ hs

lemma exploreSeed_head {events : List (String × List Nat)} {cov : Cov}
    {required_team : Option Nat} {sols : List (List Nat × Nat)} {start : Nat}
    {x : List Nat × Nat} (h : sols.head? = some x) :
    (exploreSeed events cov required_team sols start).head? = some x := by
  unfold exploreSeed acceptSolution
  split
  · exact h
  · dsimp only
    split
    · split
      · exact h
      · rcases sols with _ | ⟨s0, rest⟩
        · simp at h
        · simp only [List.cons_append, List.head?_cons] at h ⊢
          exact h
    · exact h

lemma foldl_exploreSeed_head {events : List (String × List Nat)} {cov : Cov}
    {required_team : Option Nat} :
    ∀ (seeds : List Nat) (sols : List (List Nat × Nat)) (x : List Nat × Nat),
      sols.head? = some x →
      (seeds.foldl (exploreSeed events cov required_team) sols).head? = some x := by
  intro seeds
  induction seeds with
  | nil => intro sols x h; exact h
  | cons s rest ih =>
    intro sols x h
    rw [List.foldl_cons]
    exact ih _ x (exploreSeed_head h)

lemma greedyLoop_rounds {cov : Cov} {fuel : Nat} {sel : List Nat} {unc : Finset String}
    (hsel : sel.Nodup) (hkeys : (cov.map Prod.fst).Nodup) :
    (greedyLoop cov fuel sel unc).length ≤ sel.length + min cov.length unc.card := by
  obtain ⟨rest, hr⟩ := greedyLoop_append cov fuel sel unc
  have h1 := greedyLoop_length cov fuel sel unc
  have hnd : (sel ++ rest).Nodup := hr ▸ greedyLoop_nodup cov fuel sel unc hsel
  rw [List.nodup_append] at hnd
  have hsub : ∀ x ∈ rest, x ∈ cov.map Prod.fst := by
    intro x hx
    rcases greedyLoop_mem cov fuel sel unc x
        (by rw [hr]; exact List.mem_append_right _ hx) with hs | hk
    · exact (hnd.2.2 hs hx).elim
    · exact hk
  have h2 : rest.length ≤ cov.length := by
    have e1 : rest.toFinset.card = rest.length := List.toFinset_card_of_nodup hnd.2.1
    have e2 : rest.toFinset ⊆ (cov.map Prod.fst).toFinset := by
      intro x hx
      exact List.mem_toFinset.mpr (hsub x (List.mem_toFinset.mp hx))
    have e3 := Finset.card_le_card e2
    have e4 : (cov.map Prod.fst).toFinset.card = cov.length := by
      rw [List.toFinset_card_of_nodup hkeys, List.length_map]
    omega
  rw [hr] at h1 ⊢
  rw [List.length_append] at h1 ⊢
  omega

lemma seedIfRequired_nodup (cov : Cov) (required_team : Option Nat)
    (U : Finset String) : (seedIfRequired cov required_team U).1.Nodup := by
  cases required_team with
  | none => simp [seedIfRequired]
  | some r =>
    simp only [seedIfRequired]
    by_cases hr : r ≠ 0
    · rw [if_pos hr]
      cases cov.lookup r <;> simp
    · rw [if_neg hr]; simp

lemma exploreSeeds_nodup (cov : Cov) (required_team : Option Nat) (start : Nat)
    (U : Finset String) :
    (seedStartStep cov start (seedRequiredStep cov required_team start ([], U))).1.Nodup := by
  cases required_team with
  | none =>
    simp only [seedRequiredStep, seedStartStep]
    cases cov.lookup start <;> simp
  | some r =>
    simp only [seedRequiredStep]
    by_cases h : r ≠ 0 ∧ r ≠ start
    · rw [if_pos h]
      cases hl : cov.lookup r with
      | none =>
        simp only [seedStartStep]
        cases cov.lookup start <;> simp
      | some evs =>
        simp only [seedStartStep]
        cases cov.lookup start <;> simp [h.2]
    · rw [if_neg h]
      simp only [seedStartStep]
      cases cov.lookup start <;> simp

lemma acceptSolution_nodup {events : List (String × List Nat)} {cov : Cov}
    {sols : List (List Nat × Nat)} {selected : List Nat}
    (h : ∀ s ∈ sols, s.1.Nodup) (hsel : selected.Nodup) :
    ∀ s ∈ acceptSolution events cov sols selected, s.1.Nodup := by
  unfold acceptSolution
  split
  · split
    · exact h
    · intro s hs
      rcases List.mem_append.mp hs with hs | hs
      · exact h s hs
      · rw [List.mem_singleton] at hs; subst hs; exact hsel
  · exact h

lemma exploreSeed_nodup {events : List (String × List Nat)} {cov : Cov}
    {required_team : Option Nat} {sols : List (List Nat × Nat)} {start : Nat}
    (h : ∀ s ∈ sols, s.1.Nodup) :
    ∀ s ∈ exploreSeed events cov required_team sols start, s.1.Nodup := by
  unfold exploreSeed
  split
  · exact h
  · exact acceptSolution_nodup h
      (greedyLoop_nodup _ _ _ _ (exploreSeeds_nodup cov required_team start _))

lemma foldl_exploreSeed_nodup {events : List (String × List Nat)} {cov : Cov}
    {required_team : Option Nat} :
    ∀ (seeds : List Nat) (sols : List (List Nat × Nat)),
      (∀ s ∈ sols, s.1.Nodup) →
      ∀ s ∈ seeds.foldl (exploreSeed events cov required_team) sols, s.1.Nodup := by
  intro seeds
  induction seeds with
  | nil => intro sols h; exact h
  | cons s rest ih =>
    intro sols h
    rw [List.foldl_cons]
    exact ih _ (exploreSeed_nodup h)

lemma greedy_set_cover_fst (events : List (String × List Nat))
    (required_team : Option Nat) (max_team_number : Nat)
    (excluded_teams included_teams : List Nat) :
    (greedy_set_cover_with_required_team events required_team max_team_number
        excluded_teams included_teams).1 =
      greedyLoop (find_team_coverage events max_team_number excluded_teams included_teams)
        (seedIfRequired (find_team_coverage events max_team_number excluded_teams
          included_teams) required_team (taskUniverse events)).2.card
        (seedIfRequired (find_team_coverage events max_team_number excluded_teams
          included_teams) required_team (taskUniverse events)).1
        (seedIfRequired (find_team_coverage events max_team_number excluded_teams
          included_teams) required_team (taskUniverse events)).2 := rfl

lemma greedy_set_cover_eta (events : List (String × List Nat))
    (required_team : Option Nat) (max_team_number : Nat)
    (excluded_teams included_teams : List Nat) :
    greedy_set_cover_with_required_team events required_team max_team_number
        excluded_teams included_teams =
      ((greedy_set_cover_with_required_team events required_team max_team_number
          excluded_teams included_teams).1,
        (greedy_set_cover_with_required_team events required_team max_team_number
          excluded_teams included_teams).1.length) := rfl

lemma find_alternative_solutions_def (events : List (String × List Nat))
    (required_team : Option Nat) (max_solutions max_team_number : Nat)
    (excluded_teams included_teams : List Nat) :
    find_alternative_solutions events required_team max_solutions max_team_number
        excluded_teams included_teams =
      (((seedsFor (find_team_coverage events max_team_number excluded_teams
            included_teams) required_team).take max_solutions).foldl
          (exploreSeed events (find_team_coverage events max_team_number excluded_teams
            included_teams) required_team)
          [greedy_set_cover_with_required_team events required_team max_team_number
            excluded_teams included_teams]).take max_solutions := rfl

/-- C1: every alternative solution beyond Solution #1 that
find_alternative_solutions returns covers the full task universe (the union
of its selected resources' indexed task sets equals the task universe), and
no two solutions in the returned list have the same underlying resource set. -/
theorem alt_solutions_coverage_closure_and_dedup (events : List (String × List Nat))
    (required_team : Option Nat) (max_solutions max_team_number : Nat)
    (excluded_teams included_teams : List Nat)
    (hkeys : (events.map Prod.fst).Nodup) :
    (∀ s ∈ (find_alternative_solutions events required_team max_solutions
        max_team_number excluded_teams included_teams).drop 1,
      allCovered (find_team_coverage events max_team_number excluded_teams
        included_teams) s.1 = taskUniverse events) ∧
    (find_alternative_solutions events required_team max_solutions
        max_team_number excluded_teams included_teams).Pairwise
      (fun a b => a.1.toFinset ≠ b.1.toFinset) := by
  have hinv : SolsInv events
      (find_team_coverage events max_team_number excluded_teams included_teams)
      (((seedsFor (find_team_coverage events max_team_number excluded_teams
          included_teams) required_team).take max_solutions).foldl
        (exploreSeed events (find_team_coverage events max_team_number excluded_teams
          included_teams) required_team)
        [greedy_set_cover_with_required_team events required_team max_team_number
          excluded_teams included_teams]) := by
    refine foldl_exploreSeed_inv _ _ ⟨List.pairwise_singleton _ _, ?_⟩
    intro s hs
    simp at hs
  have huniv_card : (taskUniverse events).card = events.length := by
    rw [taskUniverse, List.toFinset_card_of_nodup hkeys, List.length_map]
  rw [find_alternative_solutions_def]
  constructor
  · intro s hs
    have hs' := mem_drop_one_take hs
    have hcard := hinv.2 s hs'
    refine Finset.eq_of_subset_of_card_le (allCovered_sub s.1) ?_
    omega
  · exact List.Pairwise.sublist (List.take_sublist _ _) hinv.1

/-- Witness for C1 at a concrete input. -/
theorem alt_solutions_coverage_closure_and_dedup_witness :
    (∀ s ∈ (find_alternative_solutions [("A", [1]), ("B", [2])] none 5 12000 [] []).drop 1,
      allCovered (find_team_coverage [("A", [1]), ("B", [2])] 12000 [] []) s.1 =
        taskUniverse [("A", [1]), ("B", [2])]) ∧
    (find_alternative_solutions [("A", [1]), ("B", [2])] none 5 12000 [] []).Pairwise
      (fun a b => a.1.toFinset ≠ b.1.toFinset) :=
  alt_solutions_coverage_closure_and_dedup [("A", [1]), ("B", [2])] none 5 12000 [] []
    (by decide)

/-- C2 (code evaluation at the failing input): with the single task A covered
by resources 3 and 2 — inserted in that order — both tie at marginal coverage
1, and the code selects resource 3, the first in the mapping's insertion
order, not the smallest identifier 2. -/
theorem greedy_tie_break_insertion_order_eval :
    find_team_coverage [("A", [3, 2])] 12000 [] [] = [(3, ["A"]), (2, ["A"])] ∧
    coverageOf (taskUniverse [("A", [3, 2])]) ["A"] = 1 ∧
    (greedy_set_cover_with_required_team [("A", [3, 2])] none 12000 [] []).1 = [3] := by
  decide

/-- C3 counterexample: mandatory resource 0 is eligible and present as a key
of the Coverage Index, yet the Selector's solution is [5, 0], with 5 at
position 0 (Python truthiness of required_team = 0 skips the seeding). -/
theorem required_zero_not_first_cex :
    ((find_team_coverage [("A", [5]), ("B", [5]), ("C", [0])] 12000 [] []).lookup 0).isSome
        = true ∧
    eligibleTeam 12000 [] [] 0 = true ∧
    (greedy_set_cover_with_required_team [("A", [5]), ("B", [5]), ("C", [0])] (some 0)
        12000 [] []).1 = [5, 0] := by
  decide

/-- C3 (amended): if the mandatory resource has a nonzero identifier and is
present as a key of the Coverage Index, the Selector's solution has it at
position 0. -/
theorem required_first_position_zero (events : List (String × List Nat))
    (r : Nat) (max_team_number : Nat) (excluded_teams included_teams : List Nat)
    (hr : r ≠ 0)
    (hmem : ((find_team_coverage events max_team_number excluded_teams
      included_teams).lookup r).isSome = true) :
    (greedy_set_cover_with_required_team events (some r) max_team_number
      excluded_teams included_teams).1.head? = some r := by
  rw [greedy_set_cover_fst]
  obtain ⟨evs, hevs⟩ := Option.isSome_iff_exists.mp hmem
  have hseed : seedIfRequired (find_team_coverage events max_team_number
      excluded_teams included_teams) (some r) (taskUniverse events) =
      ([r], taskUniverse events \ evs.toFinset) := by
    simp only [seedIfRequired]
    rw [if_pos hr, hevs]
  rw [hseed]
  obtain ⟨rest, hrest⟩ :=
    greedyLoop_append (find_team_coverage events max_team_number excluded_teams
      included_teams) (taskUniverse events \ evs.toFinset).card [r]
      (taskUniverse events \ evs.toFinset)
  rw [hrest]
  simp

/-- Witness for the amended C3 at a concrete input. -/
theorem required_first_position_zero_witness :
    (greedy_set_cover_with_required_team [("A", [2]), ("B", [3])] (some 3)
        12000 [] []).1.head? = some 3 :=
  required_first_position_zero [("A", [2]), ("B", [3])] 3 12000 [] [] (by decide)
    (by decide)

/-- C4: a resource is a key of the Coverage Index iff it occurs in some
task's resource list, is not in the exclusion set, and is at most the
threshold or in the inclusion set; exclusion beats inclusion beats
threshold. -/
theorem coverage_index_keys_iff (events : List (String × List Nat))
    (max_team_number : Nat) (excluded_teams included_teams : List Nat) (t : Nat) :
    t ∈ (find_team_coverage events max_team_number excluded_teams
        included_teams).map Prod.fst ↔
      (∃ p ∈ events, t ∈ p.2) ∧ t ∉ excluded_teams ∧
        (t ≤ max_team_number ∨ t ∈ included_teams) := by
  rw [mem_keys_find_team_coverage]
  simp [eligibleTeam]
  tauto

/-- C5 (code evaluation at the failing input): with mandatory resource 1 also
in the exclusion list, the engine returns the plain solution list [([], 0)],
indistinguishable from a run with no mandatory resource at all — no conflict
is surfaced in the returned data (the excluded resource is however never
selected). -/
theorem excluded_required_silent_eval :
    find_alternative_solutions [("A", [1])] (some 1) 5 12000 [1] [] = [([], 0)] ∧
    find_alternative_solutions [("A", [1])] (some 1) 5 12000 [1] [] =
      find_alternative_solutions [("A", [1])] none 5 12000 [1] [] ∧
    (∀ s ∈ find_alternative_solutions [("A", [1])] (some 1) 5 12000 [1] [],
      1 ∉ s.1) := by
  decide

/-- C6 (code evaluation at the failing input): two raw mappings with the same
key-to-value content, differing only in insertion order (a transposition of
the first two entries), produce different Solution Sets. -/
theorem insertion_order_changes_output_eval :
    List.Perm [("A", [2]), ("B", [1]), ("C", [2]), ("D", [1])]
        [("B", [1]), ("A", [2]), ("C", [2]), ("D", [1])] ∧
      find_alternative_solutions [("A", [2]), ("B", [1]), ("C", [2]), ("D", [1])]
          none 5 12000 [] [] ≠
        find_alternative_solutions [("B", [1]), ("A", [2]), ("C", [2]), ("D", [1])]
          none 5 12000 [] [] :=
  ⟨List.Perm.swap _ _ _, by decide⟩

/-- C7 counterexample: with maximum solution count 0 the returned list is
empty, so its first element is not the Selector's solution (which exists). -/
theorem max_solutions_zero_cex :
    find_alternative_solutions [("A", [1])] none 0 12000 [] [] = [] ∧
    greedy_set_cover_with_required_team [("A", [1])] none 12000 [] [] = ([1], 1) := by
  decide

/-- C7 (amended): the Explorer returns at most max_solutions solutions, and
when max_solutions is at least 1 the first element is exactly the Selector's
solution, recorded even when incomplete. -/
theorem solution_set_bounded_first_is_greedy (events : List (String × List Nat))
    (required_team : Option Nat) (max_solutions max_team_number : Nat)
    (excluded_teams included_teams : List Nat) :
    (find_alternative_solutions events required_team max_solutions max_team_number
        excluded_teams included_teams).length ≤ max_solutions ∧
    (0 < max_solutions →
      (find_alternative_solutions events required_team max_solutions max_team_number
          excluded_teams included_teams).head? =
        some (greedy_set_cover_with_required_team events required_team max_team_number
          excluded_teams included_teams)) := by
  constructor
  · rw [find_alternative_solutions_def, List.length_take]
    exact min_le_left _ _
  · intro hK
    obtain ⟨k, rfl⟩ : ∃ k, max_solutions = k + 1 := ⟨max_solutions - 1, by omega⟩
    rw [find_alternative_solutions_def]
    have hh : (((seedsFor (find_team_coverage events max_team_number excluded_teams
        included_teams) required_team).take (k + 1)).foldl
        (exploreSeed events (find_team_coverage events max_team_number excluded_teams
          included_teams) required_team)
        [greedy_set_cover_with_required_team events required_team max_team_number
          excluded_teams included_teams]).head? =
        some (greedy_set_cover_with_required_team events required_team max_team_number
          excluded_teams included_teams) :=
      foldl_exploreSeed_head _ _ _ (by simp)
    cases hfull : ((seedsFor (find_team_coverage events max_team_number excluded_teams
        included_teams) required_team).take (k + 1)).foldl
        (exploreSeed events (find_team_coverage events max_team_number excluded_teams
          included_teams) required_team)
        [greedy_set_cover_with_required_team events required_team max_team_number
          excluded_teams included_teams] with
    | nil => rw [hfull] at hh; simp at hh
    | cons a t =>
      rw [hfull] at hh
      simp only [List.head?_cons, Option.some.injEq] at hh
      subst hh
      simp [List.take_succ_cons]

/-- Witness for the amended C7 at a concrete input. -/
theorem solution_set_bounded_first_is_greedy_witness :
    (find_alternative_solutions [("A", [1])] none 3 12000 [] []).length ≤ 3 ∧
    (find_alternative_solutions [("A", [1])] none 3 12000 [] []).head? =
      some (greedy_set_cover_with_required_team [("A", [1])] none 12000 [] []) :=
  ⟨(solution_set_bounded_first_is_greedy [("A", [1])] none 3 12000 [] []).1,
    (solution_set_bounded_first_is_greedy [("A", [1])] none 3 12000 [] []).2
      (by decide)⟩

/-- C8: when the mandatory resource is absent from the Coverage Index the
Selector proceeds without seeding: its result equals the plain greedy cover
computed with no mandatory resource, and the returned sequence does not
contain the mandatory resource. -/
theorem required_absent_degrades_gracefully (events : List (String × List Nat))
    (r : Nat) (max_team_number : Nat) (excluded_teams included_teams : List Nat)
    (habs : (find_team_coverage events max_team_number excluded_teams
      included_teams).lookup r = none) :
    greedy_set_cover_with_required_team events (some r) max_team_number
        excluded_teams included_teams =
      greedy_set_cover_with_required_team events none max_team_number
        excluded_teams included_teams ∧
    r ∉ (greedy_set_cover_with_required_team events (some r) max_team_number
        excluded_teams included_teams).1 := by
  have hseed : seedIfRequired (find_team_coverage events max_team_number
      excluded_teams included_teams) (some r) (taskUniverse events) =
      ([], taskUniverse events) := by
    simp only [seedIfRequired]
    by_cases hr : r ≠ 0
    · rw [if_pos hr, habs]
    · rw [if_neg hr]
  have hsel : (greedy_set_cover_with_required_team events (some r) max_team_number
      excluded_teams included_teams).1 =
      (greedy_set_cover_with_required_team events none max_team_number
        excluded_teams included_teams).1 := by
    rw [greedy_set_cover_fst, greedy_set_cover_fst, hseed]
    rfl
  constructor
  · rw [greedy_set_cover_eta events (some r) max_team_number excluded_teams
      included_teams, greedy_set_cover_eta events none max_team_number excluded_teams
      included_teams, hsel]
  · intro hx
    rw [greedy_set_cover_fst, hseed] at hx
    rcases greedyLoop_mem _ _ _ _ r hx with hs | hk
    · simp at hs
    · rw [mem_keys_iff_lookup, habs] at hk
      simp at hk

/-- Witness for C8 at a concrete input. -/
theorem required_absent_degrades_gracefully_witness :
    greedy_set_cover_with_required_team [("A", [1])] (some 9) 12000 [] [] =
      greedy_set_cover_with_required_team [("A", [1])] none 12000 [] [] ∧
    9 ∉ (greedy_set_cover_with_required_team [("A", [1])] (some 9) 12000 [] []).1 :=
  required_absent_degrades_gracefully [("A", [1])] 9 12000 [] [] (by decide)

/-- C9 counterexample: with mandatory resource 0 (eligible, in the index,
covering two tasks) the Explorer's output differs from the run with no
mandatory resource: the duplicate-seed guard compares seed 0 against
required_team 0 and skips it, dropping a solution the no-mandatory run
finds. -/
theorem required_zero_explorer_differs_cex :
    find_alternative_solutions [("A", [9, 0]), ("B", [9, 0]), ("C", [1])] (some 0) 5
        12000 [] [] ≠
      find_alternative_solutions [("A", [9, 0]), ("B", [9, 0]), ("C", [1])] none 5
        12000 [] [] := by
  decide

/-- C9 (amended): with mandatory identifier 0 the Selector behaves exactly as
with no mandatory resource, and in the Explorer resource 0 is never prepended
to the seed list and never seeded as the required resource; the Explorer's
duplicate-seed guard however still compares each seed against some 0, so the
Explorer's overall output can differ from the no-mandatory run. -/
theorem required_zero_selector_as_none (events : List (String × List Nat))
    (max_team_number : Nat) (excluded_teams included_teams : List Nat) :
    greedy_set_cover_with_required_team events (some 0) max_team_number
        excluded_teams included_teams =
      greedy_set_cover_with_required_team events none max_team_number
        excluded_teams included_teams ∧
    (∀ cov : Cov, seedsFor cov (some 0) = seedsFor cov none) ∧
    (∀ (cov : Cov) (start : Nat) (st : List Nat × Finset String),
      seedRequiredStep cov (some 0) start st = st) := by
  refine ⟨?_, ?_, ?_⟩
  · rfl
  · intro cov
    simp [seedsFor]
  · intro cov start st
    simp [seedRequiredStep]

/-- C10: both greedy selection loops terminate with the stated bounds.  For
the Selector: its loop never exhausts its fuel (any fuel at least the
uncovered-set cardinality gives the same result), its output has no
duplicate resources, and it adds at most min(|index|, |uncovered tasks|)
resources beyond the seed.  For each reseeded Explorer search: exploreSeed's
greedy loop runs exactly on the explorerSeedState for its seed (the stated
definitional equation), that loop likewise never exhausts its fuel, and it
adds at most min(|index|, |uncovered tasks|) resources beyond its seeds.
Every solution the Explorer returns has pairwise distinct resources. -/
theorem greedy_terminates_nodup_bounded (events : List (String × List Nat))
    (required_team : Option Nat) (max_solutions max_team_number : Nat)
    (excluded_teams included_teams : List Nat) :
    (greedy_set_cover_with_required_team events required_team max_team_number
        excluded_teams included_teams).1.Nodup ∧
    (greedy_set_cover_with_required_team events required_team max_team_number
        excluded_teams included_teams).1.length ≤
      (seedIfRequired (find_team_coverage events max_team_number excluded_teams
          included_teams) required_team (taskUniverse events)).1.length +
        min (find_team_coverage events max_team_number excluded_teams
            included_teams).length
          (seedIfRequired (find_team_coverage events max_team_number excluded_teams
            included_teams) required_team (taskUniverse events)).2.card ∧
    (∀ fuel,
      (seedIfRequired (find_team_coverage events max_team_number excluded_teams
          included_teams) required_team (taskUniverse events)).2.card ≤ fuel →
      greedyLoop (find_team_coverage events max_team_number excluded_teams
          included_teams) fuel
        (seedIfRequired (find_team_coverage events max_team_number excluded_teams
          included_teams) required_team (taskUniverse events)).1
        (seedIfRequired (find_team_coverage events max_team_number excluded_teams
          included_teams) required_team (taskUniverse events)).2 =
      (greedy_set_cover_with_required_team events required_team max_team_number
        excluded_teams included_teams).1) ∧
    (∀ (sols : List (List Nat × Nat)) (start : Nat),
      exploreSeed events
          (find_team_coverage events max_team_number excluded_teams included_teams)
          required_team sols start =
        if required_team = some start ∧ 0 < sols.length then sols
        else
          acceptSolution events
            (find_team_coverage events max_team_number excluded_teams included_teams)
            sols
            (greedyLoop
              (find_team_coverage events max_team_number excluded_teams included_teams)
              (explorerSeedState events required_team max_team_number excluded_teams
                included_teams start).2.card
              (explorerSeedState events required_team max_team_number excluded_teams
                included_teams start).1
              (explorerSeedState events required_team max_team_number excluded_teams
                included_teams start).2)) ∧
    (∀ (start : Nat) (fuel : Nat),
      (explorerSeedState events required_team max_team_number excluded_teams
          included_teams start).2.card ≤ fuel →
      greedyLoop (find_team_coverage events max_team_number excluded_teams
          included_teams) fuel
        (explorerSeedState events required_team max_team_number excluded_teams
          included_teams start).1
        (explorerSeedState events required_team max_team_number excluded_teams
          included_teams start).2 =
      greedyLoop (find_team_coverage events max_team_number excluded_teams
          included_teams)
        (explorerSeedState events required_team max_team_number excluded_teams
          included_teams start).2.card
        (explorerSeedState events required_team max_team_number excluded_teams
          included_teams start).1
        (explorerSeedState events required_team max_team_number excluded_teams
          included_teams start).2) ∧
    (∀ start : Nat,
      (greedyLoop (find_team_coverage events max_team_number excluded_teams
          included_teams)
        (explorerSeedState events required_team max_team_number excluded_teams
          included_teams start).2.card
        (explorerSeedState events required_team max_team_number excluded_teams
          included_teams start).1
        (explorerSeedState events required_team max_team_number excluded_teams
          included_teams start).2).length ≤
      (explorerSeedState events required_team max_team_number excluded_teams
          included_teams start).1.length +
        min (find_team_coverage events max_team_number excluded_teams
            included_teams).length
          (explorerSeedState events required_team max_team_number excluded_teams
            included_teams start).2.card) ∧
    (∀ s ∈ find_alternative_solutions events required_team max_solutions
        max_team_number excluded_teams included_teams, s.1.Nodup) := by
  refine ⟨?_, ?_, ?_, ?_, ?_, ?_, ?_⟩
  · exact greedyLoop_nodup _ _ _ _ (seedIfRequired_nodup _ _ _)
  · exact greedyLoop_rounds (seedIfRequired_nodup _ _ _)
      (keys_nodup_find_team_coverage _ _ _ _)
  · intro fuel hf
    exact greedyLoop_stable _ fuel _ _ hf
  · intro sols start
    rfl
  · intro start fuel hf
    exact greedyLoop_stable _ fuel _ _ hf
  · intro start
    exact greedyLoop_rounds (exploreSeeds_nodup _ _ _ _)
      (keys_nodup_find_team_coverage _ _ _ _)
  · intro s hs
    rw [find_alternative_solutions_def] at hs
    refine foldl_exploreSeed_nodup _ _ ?_ s (List.take_subset _ _ hs)
    intro s' hs'
    rw [List.mem_singleton] at hs'
    subst hs'
    exact greedyLoop_nodup _ _ _ _ (seedIfRequired_nodup _ _ _)

/-- Witness for C10 at a concrete input, exercising both fuel-stability
conjuncts: the Selector's loop and the Explorer's reseeded loop for seed 7. -/
theorem greedy_terminates_nodup_bounded_witness :
    (greedyLoop (find_team_coverage [("A", [7])] 12000 [] []) 5
        (seedIfRequired (find_team_coverage [("A", [7])] 12000 [] []) none
          (taskUniverse [("A", [7])])).1
        (seedIfRequired (find_team_coverage [("A", [7])] 12000 [] []) none
          (taskUniverse [("A", [7])])).2 =
      (greedy_set_cover_with_required_team [("A", [7])] none 12000 [] []).1) ∧
    (greedyLoop (find_team_coverage [("A", [7])] 12000 [] []) 5
        (explorerSeedState [("A", [7])] none 12000 [] [] 7).1
        (explorerSeedState [("A", [7])] none 12000 [] [] 7).2 =
      greedyLoop (find_team_coverage [("A", [7])] 12000 [] [])
        (explorerSeedState [("A", [7])] none 12000 [] [] 7).2.card
        (explorerSeedState [("A", [7])] none 12000 [] [] 7).1
        (explorerSeedState [("A", [7])] none 12000 [] [] 7).2) :=
  ⟨(greedy_terminates_nodup_bounded [("A", [7])] none 5 12000 [] []).2.2.1 5
      (by decide),
    (greedy_terminates_nodup_bounded [("A", [7])] none 5 12000 [] []).2.2.2.2.1 7 5
      (by decide)⟩

end MCA
